import Mathlib

/-
Shallow embedding of the signaling endpoint in `src/run.py` (the `offer`
route, lines 75-102, together with the module-level registry `pcs_map`
and the `handle_disconnected` closed-event handler, lines 89-92).

The external connection engine (`SmallWebRTCConnection` from pipecat) is an
opaque collaborator: a request-scoped `Engine` value describes what the
engine would do on this request (the freshly constructed connection's
post-initialization state, whether initialization raises, and the result of
a renegotiation call).  `get_answer` on a handle returns a payload carrying
the handle's own identifier, which is how the library behaves and what the
spec states (section 4.2 step 3).

The HTTP layer (FastAPI) turns a value returned from the route into a
200 response and an exception escaping the route into a 500 server-error
response; `httpStatus` records that framework mapping.
-/

namespace PipecatRunner

/-- State of an opaque `SmallWebRTCConnection` handle as observable here:
its engine-assigned identifier and the answer payload it would produce. -/
structure SmallWebRTCConnection where
  pc_id : String
  answerSdp : String
  answerType : String
deriving DecidableEq, Repr

/-- Answer payload `{pc_id, sdp, type}` returned to the HTTP client. -/
structure Answer where
  pc_id : String
  sdp : String
  type : String
deriving DecidableEq, Repr

/-- The engine's `get_answer()`: the payload always carries the handle's
own identifier (external engine behavior, stated in the spec). -/
def get_answer (c : SmallWebRTCConnection) : Answer :=
  ⟨c.pc_id, c.answerSdp, c.answerType⟩

/-- The request body of `POST /api/offer`, a JSON object read as a raw
dict: every field access may find the key absent. -/
structure OfferRequest where
  pc_id : Option String
  sdp : Option String
  type : Option String
  restart_pc : Option Bool
deriving DecidableEq, Repr

/-- `pcs_map`: the module-level dict mapping `pc_id` to connection,
modelled as an insertion-ordered association list, as a Python dict is. -/
abbrev Registry := List (String × SmallWebRTCConnection)

/-- Dict lookup `pcs_map[id]` as an option. -/
def Registry.find? : Registry → String → Option SmallWebRTCConnection
  | [], _ => none
  | (k, c) :: rest, id => if k = id then some c else Registry.find? rest id

/-- Dict membership `id in pcs_map`. -/
def Registry.containsKey (m : Registry) (id : String) : Bool :=
  (Registry.find? m id).isSome

/-- Dict assignment `pcs_map[id] = c`: update in place if the key is
present, append otherwise. -/
def Registry.set : Registry → String → SmallWebRTCConnection → Registry
  | [], id, c => [(id, c)]
  | (k, c0) :: rest, id, c =>
    if k = id then (id, c) :: rest else (k, c0) :: Registry.set rest id c

/-- Dict removal `pcs_map.pop(id, None)`: drop the entry with this key if
present, otherwise leave the dict unchanged (and raise nothing). -/
def Registry.pop : Registry → String → Registry
  | [], _ => []
  | (k, c0) :: rest, id =>
    if k = id then rest else (k, c0) :: Registry.pop rest id

/-- The keys of the registry in order. -/
def Registry.keys (m : Registry) : List String := m.map Prod.fst

/-- Well-formedness: a Python dict never holds two entries with the same
key, so every registry value reachable in the program has nodup keys. -/
def Registry.wf (m : Registry) : Prop := (Registry.keys m).Nodup

/-- The closed-event handler registered on every newly created handle
(lines 89-92): it pops the entry keyed by the *handle's own* identifier,
with a default, so an absent key is a no-op. -/
def handle_disconnected (webrtc_connection : SmallWebRTCConnection)
    (m : Registry) : Registry :=
  Registry.pop m webrtc_connection.pc_id

/-- Exceptions that can escape the `offer` route: a `KeyError` from
`request["sdp"]` / `request["type"]`, or an error raised inside the
engine's initialization / renegotiation call. -/
inductive OfferError where
  | keyError : String → OfferError
  | negotiationError : OfferError
deriving DecidableEq, Repr

/-- Behavior of the opaque engine for one request: `fresh` is the state a
newly constructed connection would have after successful initialization
(its `pc_id` assigned by the engine), `initOk` tells whether that
initialization raises, and `reneg` gives the handle's state after a
`renegotiate(sdp, type, restart_pc)` call (`none` meaning the call raises). -/
structure Engine where
  fresh : SmallWebRTCConnection
  initOk : Bool
  reneg : SmallWebRTCConnection → String → String → Bool →
    Option SmallWebRTCConnection

/-- Everything observable about one call to the `offer` route: the
returned answer or escaped exception, the registry afterwards, whether a
new `SmallWebRTCConnection(...)` was constructed, whether
`background_tasks.add_task(run_example_func, ...)` ran, whether the
closed-event handler was registered, the new live handle if one was
initialized, and the arguments of the renegotiate / initialization call
when one was made. -/
structure OfferOutcome where
  result : Except OfferError Answer
  registry : Registry
  constructed : Bool
  dispatched : Bool
  closedRegistered : Bool
  newConn : Option SmallWebRTCConnection
  renegArgs : Option (String × String × Bool)
  initArgs : Option (String × String)
deriving Repr

/-- The branch test of line 79, `if pc_id and pc_id in pcs_map:`:
`request.get("pc_id")` must be present, truthy (a non-empty string), and a
key of the dict; when the test passes the branch uses `pcs_map[pc_id]`. -/
def lookupBranch : Registry → Option String → Option SmallWebRTCConnection
  | _, none => none
  | m, some s => if s = "" then none else Registry.find? m s

/-- Lines 82-84 and 98-100 on the renegotiation branch, after the request
fields are read: the engine's renegotiate call runs with the given sdp,
type and restart flag; on success the answer payload (keyed by the
handle's own, possibly updated, identifier) is upserted into the registry. -/
def renegCallStep (eng : Engine) (m : Registry)
    (conn : SmallWebRTCConnection) (sd ty : String) (rb : Bool) :
    OfferOutcome :=
  match eng.reneg conn sd ty rb with
  | none =>
    ⟨.error .negotiationError, m, false, false, false, none,
      some (sd, ty, rb), none⟩
  | some conn2 =>
    ⟨.ok (get_answer conn2), Registry.set m (get_answer conn2).pc_id conn2,
      false, false, false, none, some (sd, ty, rb), none⟩

/-- Lines 79-84: the renegotiation branch.  `request["sdp"]` is read
first, then `request["type"]` (each raising `KeyError` if absent), and the
restart flag defaults to `False`; then the renegotiate call runs. -/
def renegBranch (eng : Engine) (req : OfferRequest) (m : Registry)
    (conn : SmallWebRTCConnection) : OfferOutcome :=
  match req.sdp, req.type with
  | none, _ =>
    ⟨.error (.keyError "sdp"), m, false, false, false, none, none, none⟩
  | some _, none =>
    ⟨.error (.keyError "type"), m, false, false, false, none, none, none⟩
  | some sd, some ty =>
    renegCallStep eng m conn sd ty (req.restart_pc.getD false)

/-- Lines 87-100 on the new-session branch, after the request fields are
read: the engine initialization runs with the given sdp and type; only on
success are the closed-event handler registered (lines 89-92) and the
application task dispatched (line 96), and the answer upserted keyed by
the answer's own identifier (lines 98-100).  On failure the constructed
handle is dropped without touching the registry. -/
def initCallStep (eng : Engine) (m : Registry) (sd ty : String) :
    OfferOutcome :=
  if eng.initOk then
    ⟨.ok (get_answer eng.fresh),
      Registry.set m (get_answer eng.fresh).pc_id eng.fresh, true, true,
      true, some eng.fresh, none, some (sd, ty)⟩
  else
    ⟨.error .negotiationError, m, true, false, false, none, none,
      some (sd, ty)⟩

/-- Lines 85-96: the new-session branch.  A connection object is
constructed first (line 86), then `request["sdp"]` is read, then
`request["type"]` (each raising `KeyError` if absent), and the engine
initialization runs. -/
def newBranch (eng : Engine) (req : OfferRequest) (m : Registry) :
    OfferOutcome :=
  match req.sdp, req.type with
  | none, _ =>
    ⟨.error (.keyError "sdp"), m, true, false, false, none, none, none⟩
  | some _, none =>
    ⟨.error (.keyError "type"), m, true, false, false, none, none, none⟩
  | some sd, some ty => initCallStep eng m sd ty

/-- The whole `offer` route (lines 75-102). -/
def offer (eng : Engine) (req : OfferRequest) (m : Registry) : OfferOutcome :=
  match lookupBranch m req.pc_id with
  | some conn => renegBranch eng req m conn
  | none => newBranch eng req m

/-- FastAPI's mapping of the route's outcome to an HTTP status: a
returned payload becomes a 200 JSON response, an exception escaping the
route is turned into a 500 server-error response by the framework. -/
def httpStatus : Except OfferError Answer → Nat
  | .ok _ => 200
  | .error _ => 500

/-- A 4xx status. -/
def IsClientError (n : Nat) : Prop := 400 ≤ n ∧ n < 500

/-- A concrete engine for concrete evaluations: the fresh handle gets the
identifier "pc-fresh", initialization succeeds, renegotiation returns the
handle unchanged. -/
def engOk : Engine :=
  ⟨⟨"pc-fresh", "sdp-ans", "answer"⟩, true, fun c _ _ _ => some c⟩

/-- A concrete engine whose initialization and renegotiation calls raise. -/
def engFail : Engine :=
  ⟨⟨"pc-fresh", "sdp-ans", "answer"⟩, false, fun _ _ _ _ => none⟩

/-- A concrete stored connection with identifier "abc". -/
def connA : SmallWebRTCConnection := ⟨"abc", "sdp-a", "answer"⟩

/-- A concrete stored connection whose identifier is the empty string. -/
def connEmpty : SmallWebRTCConnection := ⟨"", "sdp-0", "answer"⟩

/- Registry lemmas. -/

theorem Registry.containsKey_iff_mem_keys (m : Registry) (id : String) :
    Registry.containsKey m id = true ↔ id ∈ Registry.keys m := by
  induction m with
  | nil => simp [Registry.containsKey, Registry.find?, Registry.keys]
  | cons p rest ih =>
    obtain ⟨k, c⟩ := p
    by_cases h : k = id
    · subst h
      simp [Registry.containsKey, Registry.find?, Registry.keys]
    · simp only [Registry.containsKey, Registry.find?, if_neg h,
        Registry.keys, List.map_cons, List.mem_cons] at ih ⊢
      rw [ih]
      constructor
      · exact Or.inr
      · rintro (rfl | hmem)
        · exact absurd rfl h
        · exact hmem

theorem Registry.containsKey_eq_false_iff (m : Registry) (id : String) :
    Registry.containsKey m id = false ↔ id ∉ Registry.keys m := by
  rw [← Registry.containsKey_iff_mem_keys]
  cases Registry.containsKey m id <;> simp

theorem Registry.find?_eq_none (m : Registry) (id : String)
    (h : Registry.containsKey m id = false) : Registry.find? m id = none := by
  unfold Registry.containsKey at h
  exact Option.not_isSome_iff_eq_none.mp (by simp [h])

theorem Registry.containsKey_set_self (m : Registry) (id : String)
    (c : SmallWebRTCConnection) :
    Registry.containsKey (Registry.set m id c) id = true := by
  induction m with
  | nil => simp [Registry.set, Registry.containsKey, Registry.find?]
  | cons p rest ih =>
    obtain ⟨k, c0⟩ := p
    by_cases h : k = id
    · simp [Registry.set, if_pos h, Registry.containsKey, Registry.find?]
    · simpa [Registry.set, if_neg h, Registry.containsKey, Registry.find?,
        if_neg h] using ih

theorem Registry.length_set_of_not_mem (m : Registry) (id : String)
    (c : SmallWebRTCConnection) (h : Registry.containsKey m id = false) :
    (Registry.set m id c).length = m.length + 1 := by
  induction m with
  | nil => rfl
  | cons p rest ih =>
    obtain ⟨k, c0⟩ := p
    simp only [Registry.containsKey, Registry.find?] at h
    by_cases hk : k = id
    · rw [if_pos hk] at h
      simp at h
    · rw [if_neg hk] at h
      simp only [Registry.set, if_neg hk, List.length_cons]
      rw [ih h]

theorem Registry.length_pop_lb (m : Registry) (id : String) :
    m.length ≤ (Registry.pop m id).length + 1 := by
  induction m with
  | nil => simp [Registry.pop]
  | cons p rest ih =>
    obtain ⟨k, c0⟩ := p
    by_cases hk : k = id
    · simp [Registry.pop, if_pos hk]
    · simp only [Registry.pop, if_neg hk, List.length_cons]
      omega

theorem Registry.pop_of_not_mem (m : Registry) (id : String)
    (h : Registry.containsKey m id = false) : Registry.pop m id = m := by
  induction m with
  | nil => rfl
  | cons p rest ih =>
    obtain ⟨k, c0⟩ := p
    simp only [Registry.containsKey, Registry.find?] at h
    by_cases hk : k = id
    · rw [if_pos hk] at h
      simp at h
    · rw [if_neg hk] at h
      simp only [Registry.pop, if_neg hk]
      rw [ih h]

theorem Registry.containsKey_pop_self (m : Registry) (id : String)
    (h : Registry.wf m) : Registry.containsKey (Registry.pop m id) id = false := by
  induction m with
  | nil => rfl
  | cons p rest ih =>
    obtain ⟨k, c0⟩ := p
    unfold Registry.wf at h
    simp only [Registry.keys, List.map_cons, List.nodup_cons] at h
    obtain ⟨hk, hrest⟩ := h
    by_cases hki : k = id
    · subst hki
      simp only [Registry.pop, if_pos rfl]
      rw [Registry.containsKey_eq_false_iff]
      simpa [Registry.keys] using hk
    · simp only [Registry.pop, if_neg hki, Registry.containsKey,
        Registry.find?, if_neg hki]
      exact ih (by simpa [Registry.wf, Registry.keys] using hrest)

theorem Registry.pop_idem (m : Registry) (id : String) (h : Registry.wf m) :
    Registry.pop (Registry.pop m id) id = Registry.pop m id :=
  Registry.pop_of_not_mem _ _ (Registry.containsKey_pop_self m id h)

theorem Registry.find?_pop_ne (m : Registry) (id k : String) (h : k ≠ id) :
    Registry.find? (Registry.pop m id) k = Registry.find? m k := by
  induction m with
  | nil => rfl
  | cons p rest ih =>
    obtain ⟨k0, c0⟩ := p
    by_cases hk0 : k0 = id
    · subst hk0
      simp only [Registry.pop, if_pos rfl, Registry.find?, if_true,
        eq_self_iff_true, if_neg (fun hkk : k0 = k => h hkk.symm)]
    · simp only [Registry.pop, if_neg hk0]
      by_cases hkk : k0 = k
      · simp only [Registry.find?, if_pos hkk]
      · simp only [Registry.find?, if_neg hkk]
        exact ih

/- Branch characterization lemmas for the offer route. -/

theorem lookupBranch_none_of_missing (m : Registry) :
    lookupBranch m none = none := rfl

theorem lookupBranch_empty (m : Registry) : lookupBranch m (some "") = none := by
  simp [lookupBranch]

theorem lookupBranch_none_of_absent (m : Registry) (s : String)
    (h : Registry.containsKey m s = false) : lookupBranch m (some s) = none := by
  by_cases hs : s = ""
  · subst hs
    exact lookupBranch_empty m
  · simp only [lookupBranch, if_neg hs]
    exact Registry.find?_eq_none m s h

theorem lookupBranch_some_of_found (m : Registry) (s : String)
    (conn : SmallWebRTCConnection) (hne : s ≠ "")
    (h : Registry.find? m s = some conn) :
    lookupBranch m (some s) = some conn := by
  simp only [lookupBranch, if_neg hne]
  exact h

theorem offer_of_lookup_none (eng : Engine) (req : OfferRequest) (m : Registry)
    (h : lookupBranch m req.pc_id = none) :
    offer eng req m = newBranch eng req m := by
  simp only [offer, h]

theorem offer_of_lookup_some (eng : Engine) (req : OfferRequest) (m : Registry)
    (conn : SmallWebRTCConnection) (h : lookupBranch m req.pc_id = some conn) :
    offer eng req m = renegBranch eng req m conn := by
  simp only [offer, h]

theorem renegCallStep_static (eng : Engine) (m : Registry)
    (conn : SmallWebRTCConnection) (sd ty : String) (rb : Bool) :
    (renegCallStep eng m conn sd ty rb).constructed = false ∧
    (renegCallStep eng m conn sd ty rb).dispatched = false ∧
    (renegCallStep eng m conn sd ty rb).closedRegistered = false ∧
    (renegCallStep eng m conn sd ty rb).newConn = none ∧
    (renegCallStep eng m conn sd ty rb).initArgs = none := by
  cases hr : eng.reneg conn sd ty rb <;> simp [renegCallStep, hr]

theorem renegBranch_static (eng : Engine) (req : OfferRequest) (m : Registry)
    (conn : SmallWebRTCConnection) :
    (renegBranch eng req m conn).constructed = false ∧
    (renegBranch eng req m conn).dispatched = false ∧
    (renegBranch eng req m conn).closedRegistered = false ∧
    (renegBranch eng req m conn).newConn = none ∧
    (renegBranch eng req m conn).initArgs = none := by
  cases hsd : req.sdp with
  | none => simp [renegBranch, hsd]
  | some sd =>
    cases hty : req.type with
    | none => simp [renegBranch, hsd, hty]
    | some ty =>
      simp only [renegBranch, hsd, hty]
      exact renegCallStep_static eng m conn sd ty (req.restart_pc.getD false)

theorem renegBranch_cases (eng : Engine) (req : OfferRequest) (m : Registry)
    (conn : SmallWebRTCConnection) :
    ((∃ e, (renegBranch eng req m conn).result = .error e) ∧
      (renegBranch eng req m conn).registry = m) ∨
    (∃ c2, (renegBranch eng req m conn).result = .ok (get_answer c2) ∧
      (renegBranch eng req m conn).registry =
        Registry.set m (get_answer c2).pc_id c2) := by
  cases hsd : req.sdp with
  | none =>
    refine Or.inl ⟨⟨.keyError "sdp", ?_⟩, ?_⟩ <;> simp [renegBranch, hsd]
  | some sd =>
    cases hty : req.type with
    | none =>
      refine Or.inl ⟨⟨.keyError "type", ?_⟩, ?_⟩ <;>
        simp [renegBranch, hsd, hty]
    | some ty =>
      cases hr : eng.reneg conn sd ty (req.restart_pc.getD false) with
      | none =>
        refine Or.inl ⟨⟨.negotiationError, ?_⟩, ?_⟩ <;>
          simp [renegBranch, hsd, hty, renegCallStep, hr]
      | some c2 =>
        refine Or.inr ⟨c2, ?_, ?_⟩ <;>
          simp [renegBranch, hsd, hty, renegCallStep, hr]

theorem initCallStep_cases (eng : Engine) (m : Registry) (sd ty : String) :
    (eng.initOk = true ∧
      (initCallStep eng m sd ty).result = .ok (get_answer eng.fresh) ∧
      (initCallStep eng m sd ty).registry =
        Registry.set m (get_answer eng.fresh).pc_id eng.fresh ∧
      (initCallStep eng m sd ty).dispatched = true ∧
      (initCallStep eng m sd ty).closedRegistered = true ∧
      (initCallStep eng m sd ty).newConn = some eng.fresh) ∨
    (eng.initOk = false ∧
      (initCallStep eng m sd ty).result = .error .negotiationError ∧
      (initCallStep eng m sd ty).registry = m ∧
      (initCallStep eng m sd ty).dispatched = false ∧
      (initCallStep eng m sd ty).closedRegistered = false ∧
      (initCallStep eng m sd ty).newConn = none) := by
  by_cases hi : eng.initOk = true
  · refine Or.inl ⟨hi, ?_, ?_, ?_, ?_, ?_⟩ <;> simp [initCallStep, hi]
  · have hi2 : eng.initOk = false := Bool.eq_false_iff.mpr hi
    refine Or.inr ⟨hi2, ?_, ?_, ?_, ?_, ?_⟩ <;> simp [initCallStep, hi2]

theorem newBranch_static (eng : Engine) (req : OfferRequest) (m : Registry) :
    (newBranch eng req m).constructed = true ∧
    (newBranch eng req m).renegArgs = none := by
  cases hsd : req.sdp with
  | none => refine ⟨?_, ?_⟩ <;> simp [newBranch, hsd]
  | some sd =>
    cases hty : req.type with
    | none => refine ⟨?_, ?_⟩ <;> simp [newBranch, hsd, hty]
    | some ty =>
      by_cases hi : eng.initOk = true
      · refine ⟨?_, ?_⟩ <;> simp [newBranch, hsd, hty, initCallStep, hi]
      · have hi2 : eng.initOk = false := Bool.eq_false_iff.mpr hi
        refine ⟨?_, ?_⟩ <;> simp [newBranch, hsd, hty, initCallStep, hi2]

theorem newBranch_cases (eng : Engine) (req : OfferRequest) (m : Registry) :
    ((newBranch eng req m).result = .ok (get_answer eng.fresh) ∧
      (newBranch eng req m).registry =
        Registry.set m (get_answer eng.fresh).pc_id eng.fresh ∧
      (newBranch eng req m).dispatched = true ∧
      (newBranch eng req m).closedRegistered = true ∧
      (newBranch eng req m).newConn = some eng.fresh ∧
      eng.initOk = true) ∨
    ((∃ e, (newBranch eng req m).result = .error e) ∧
      (newBranch eng req m).registry = m ∧
      (newBranch eng req m).dispatched = false ∧
      (newBranch eng req m).closedRegistered = false ∧
      (newBranch eng req m).newConn = none) := by
  cases hsd : req.sdp with
  | none =>
    refine Or.inr ⟨⟨.keyError "sdp", ?_⟩, ?_, ?_, ?_, ?_⟩ <;>
      simp [newBranch, hsd]
  | some sd =>
    cases hty : req.type with
    | none =>
      refine Or.inr ⟨⟨.keyError "type", ?_⟩, ?_, ?_, ?_, ?_⟩ <;>
        simp [newBranch, hsd, hty]
    | some ty =>
      have hstep : newBranch eng req m = initCallStep eng m sd ty := by
        simp [newBranch, hsd, hty]
      rw [hstep]
      rcases initCallStep_cases eng m sd ty with
        ⟨hi, h1, h2, h3, h4, h5⟩ | ⟨hi, h1, h2, h3, h4, h5⟩
      · exact Or.inl ⟨h1, h2, h3, h4, h5, hi⟩
      · exact Or.inr ⟨⟨_, h1⟩, h2, h3, h4, h5⟩

/- Claim theorems. -/

/-- C1 counterexample: with an empty registry, an offer carrying the unknown
pc_id "missing" is not rejected — the route answers 200, constructs a new
handle, dispatches the application task, and adds a registry entry keyed by
the engine-assigned identifier, contradicting the claim that such a request
fails validation and leaves the registry unchanged. -/
theorem c1_unknown_pcid_not_rejected :
    httpStatus (offer engOk
      ⟨some "missing", some "v=0", some "offer", none⟩ []).result = 200 ∧
    (offer engOk
      ⟨some "missing", some "v=0", some "offer", none⟩ []).constructed = true ∧
    (offer engOk
      ⟨some "missing", some "v=0", some "offer", none⟩ []).dispatched = true ∧
    (offer engOk
      ⟨some "missing", some "v=0", some "offer", none⟩ []).registry =
      [("pc-fresh", ⟨"pc-fresh", "sdp-ans", "answer"⟩)] :=
  ⟨rfl, rfl, rfl, rfl⟩

/-- C1 (amended): for every offer carrying a pc_id absent from the registry,
the request is handled on the new-session branch rather than rejected — a
new handle is constructed, no renegotiation call is made, and whenever the
route succeeds the application task has been dispatched and the registry
gained the entry keyed by the fresh handle's engine-assigned identifier. -/
theorem c1_amended_unknown_pcid_new_session (eng : Engine)
    (req : OfferRequest) (m : Registry) (s : String)
    (hid : req.pc_id = some s) (habs : Registry.containsKey m s = false) :
    (offer eng req m).constructed = true ∧
    (offer eng req m).renegArgs = none ∧
    ∀ a, (offer eng req m).result = .ok a →
      (offer eng req m).dispatched = true ∧
      (offer eng req m).registry = Registry.set m eng.fresh.pc_id eng.fresh := by
  have hl : lookupBranch m req.pc_id = none := by
    rw [hid]
    exact lookupBranch_none_of_absent m s habs
  rw [offer_of_lookup_none eng req m hl]
  obtain ⟨hc, hra⟩ := newBranch_static eng req m
  refine ⟨hc, hra, ?_⟩
  intro a ha
  rcases newBranch_cases eng req m with
    ⟨hok, hreg, hdisp, hclosed, hnew, hinit⟩ | ⟨⟨e, he⟩, hrest⟩
  · exact ⟨hdisp, hreg⟩
  · rw [he] at ha
    exact Except.noConfusion ha

/-- C1 witness: the amended statement evaluated at a concrete engine, the
request with unknown pc_id "missing", and the empty registry. -/
theorem c1_amended_witness :
    (offer engOk
      ⟨some "missing", some "v=0", some "offer", none⟩ []).constructed = true ∧
    (offer engOk
      ⟨some "missing", some "v=0", some "offer", none⟩ []).dispatched = true ∧
    (offer engOk
      ⟨some "missing", some "v=0", some "offer", none⟩ []).registry =
      Registry.set [] engOk.fresh.pc_id engOk.fresh := by
  obtain ⟨h1, h2, h3⟩ := c1_amended_unknown_pcid_new_session engOk
    ⟨some "missing", some "v=0", some "offer", none⟩ [] "missing" rfl rfl
  obtain ⟨hd, hr⟩ := h3 (get_answer engOk.fresh) rfl
  exact ⟨h1, hd, hr⟩

/-- C2 counterexample: the request's pc_id is the empty string, which is
present and is a key of the registry, yet the route constructs a new handle
and dispatches the application task again — line 79 tests the pc_id for
truthiness, so the empty string never selects the renegotiation branch. -/
theorem c2_empty_pcid_key_dispatches :
    Registry.containsKey [("", connEmpty)] "" = true ∧
    (offer engOk
      ⟨some "", some "v=0", some "offer", none⟩
      [("", connEmpty)]).constructed = true ∧
    (offer engOk
      ⟨some "", some "v=0", some "offer", none⟩
      [("", connEmpty)]).dispatched = true :=
  ⟨rfl, rfl, rfl⟩

/-- C2 (amended): for every offer whose pc_id is present, non-empty, and a
key of the registry, the route renegotiates the existing handle — it never
constructs a new handle, never dispatches the application task again, and
makes no initialization call, so across N renegotiations of one identifier
the task is scheduled at most once per handle lifetime. -/
theorem c2_amended_reneg_no_new_handle (eng : Engine) (req : OfferRequest)
    (m : Registry) (s : String) (conn : SmallWebRTCConnection)
    (hid : req.pc_id = some s) (hne : s ≠ "")
    (hmem : Registry.find? m s = some conn) :
    (offer eng req m).constructed = false ∧
    (offer eng req m).dispatched = false ∧
    (offer eng req m).newConn = none ∧
    (offer eng req m).initArgs = none := by
  have hl : lookupBranch m req.pc_id = some conn := by
    rw [hid]
    exact lookupBranch_some_of_found m s conn hne hmem
  rw [offer_of_lookup_some eng req m conn hl]
  obtain ⟨h1, h2, h3, h4, h5⟩ := renegBranch_static eng req m conn
  exact ⟨h1, h2, h4, h5⟩

/-- C2 witness: the amended statement evaluated at a concrete renegotiation
request against a registry holding the identifier "abc". -/
theorem c2_amended_witness :
    (offer engOk ⟨some "abc", some "v=0", some "offer", some true⟩
      [("abc", connA)]).constructed = false ∧
    (offer engOk ⟨some "abc", some "v=0", some "offer", some true⟩
      [("abc", connA)]).dispatched = false ∧
    (offer engOk ⟨some "abc", some "v=0", some "offer", some true⟩
      [("abc", connA)]).newConn = none ∧
    (offer engOk ⟨some "abc", some "v=0", some "offer", some true⟩
      [("abc", connA)]).initArgs = none :=
  c2_amended_reneg_no_new_handle engOk
    ⟨some "abc", some "v=0", some "offer", some true⟩
    [("abc", connA)] "abc" connA rfl (by decide) rfl

/-- C3 counterexample: a request missing the sdp field raises an uncaught
KeyError inside the route, which the framework surfaces as a 500 server
error, not a 4xx client error — there is no request validation in the code. -/
theorem c3_missing_sdp_server_error :
    httpStatus (offer engOk ⟨none, none, some "offer", none⟩ []).result = 500 ∧
    ¬ IsClientError
      (httpStatus (offer engOk ⟨none, none, some "offer", none⟩ []).result) := by
  refine ⟨rfl, ?_⟩
  intro h
  unfold IsClientError at h
  exact absurd h.2 (by decide)

/-- C3 (amended): for every request missing the sdp field or the type
field, the route raises an uncaught KeyError that the framework turns into
a 500 server-error response — not a 4xx client error — and the registry is
left unchanged. -/
theorem c3_amended_missing_field_500 (eng : Engine) (req : OfferRequest)
    (m : Registry) (hmiss : req.sdp = none ∨ req.type = none) :
    httpStatus (offer eng req m).result = 500 ∧
    (offer eng req m).registry = m := by
  cases hl : lookupBranch m req.pc_id with
  | some conn =>
    rw [offer_of_lookup_some eng req m conn hl]
    cases hsd : req.sdp with
    | none =>
      refine ⟨?_, ?_⟩ <;> simp [renegBranch, hsd, httpStatus]
    | some sd =>
      rcases hmiss with hs | ht
      · rw [hsd] at hs
        exact Option.noConfusion hs
      · refine ⟨?_, ?_⟩ <;> simp [renegBranch, hsd, ht, httpStatus]
  | none =>
    rw [offer_of_lookup_none eng req m hl]
    cases hsd : req.sdp with
    | none =>
      refine ⟨?_, ?_⟩ <;> simp [newBranch, hsd, httpStatus]
    | some sd =>
      rcases hmiss with hs | ht
      · rw [hsd] at hs
        exact Option.noConfusion hs
      · refine ⟨?_, ?_⟩ <;> simp [newBranch, hsd, ht, httpStatus]

/-- C3 witness: the amended statement evaluated at a concrete request
missing the type field, against a one-entry registry. -/
theorem c3_amended_witness :
    httpStatus (offer engOk ⟨none, some "v=0", none, none⟩
      [("abc", connA)]).result = 500 ∧
    (offer engOk ⟨none, some "v=0", none, none⟩
      [("abc", connA)]).registry = [("abc", connA)] :=
  c3_amended_missing_field_500 engOk ⟨none, some "v=0", none, none⟩
    [("abc", connA)] (Or.inr rfl)

/-- C4: on every successful call, in both the new-session and the
renegotiation branch, the returned answer's pc_id is a key of the registry
at the moment the response is sent — the answer payload was upserted keyed
by its own identifier on line 100 before the return. -/
theorem c4_answer_id_in_registry (eng : Engine) (req : OfferRequest)
    (m : Registry) (a : Answer) (h : (offer eng req m).result = .ok a) :
    Registry.containsKey (offer eng req m).registry a.pc_id = true := by
  cases hl : lookupBranch m req.pc_id with
  | some conn =>
    rw [offer_of_lookup_some eng req m conn hl] at h ⊢
    rcases renegBranch_cases eng req m conn with ⟨⟨e, he⟩, hreg⟩ | ⟨c2, hok, hreg⟩
    · rw [he] at h
      exact Except.noConfusion h
    · rw [hok] at h
      have ha : a = get_answer c2 := by
        injection h with h2
        exact h2.symm
      rw [hreg, ha]
      exact Registry.containsKey_set_self m (get_answer c2).pc_id c2
  | none =>
    rw [offer_of_lookup_none eng req m hl] at h ⊢
    rcases newBranch_cases eng req m with
      ⟨hok, hreg, h3, h4, h5, h6⟩ | ⟨⟨e, he⟩, hrest⟩
    · rw [hok] at h
      have ha : a = get_answer eng.fresh := by
        injection h with h2
        exact h2.symm
      rw [hreg, ha]
      exact Registry.containsKey_set_self m (get_answer eng.fresh).pc_id eng.fresh
    · rw [he] at h
      exact Except.noConfusion h

/-- C4 witness: the statement evaluated at a concrete new-session offer
against the empty registry, whose answer carries the identifier
"pc-fresh". -/
theorem c4_witness :
    Registry.containsKey
      (offer engOk ⟨none, some "v=0", some "offer", none⟩ []).registry
      (Answer.mk "pc-fresh" "sdp-ans" "answer").pc_id = true :=
  c4_answer_id_in_registry engOk ⟨none, some "v=0", some "offer", none⟩ []
    ⟨"pc-fresh", "sdp-ans", "answer"⟩ rfl

/-- C5: if the engine's initialize or renegotiate call raises, the route
surfaces a 500 server-error response and the registry is unchanged by the
request; no task is dispatched, no closed handler is registered, and a
partially constructed handle is discarded, never inserted. -/
theorem c5_negotiation_error_atomic (eng : Engine) (req : OfferRequest)
    (m : Registry)
    (h : (offer eng req m).result = .error .negotiationError) :
    httpStatus (offer eng req m).result = 500 ∧
    (offer eng req m).registry = m ∧
    (offer eng req m).dispatched = false ∧
    (offer eng req m).newConn = none ∧
    (offer eng req m).closedRegistered = false := by
  cases hl : lookupBranch m req.pc_id with
  | some conn =>
    rw [offer_of_lookup_some eng req m conn hl] at h ⊢
    obtain ⟨h1, h2, h3, h4, h5⟩ := renegBranch_static eng req m conn
    refine ⟨by simp [h, httpStatus], ?_, h2, h4, h3⟩
    rcases renegBranch_cases eng req m conn with ⟨he, hreg⟩ | ⟨c2, hok, hreg⟩
    · exact hreg
    · rw [hok] at h
      exact Except.noConfusion h
  | none =>
    rw [offer_of_lookup_none eng req m hl] at h ⊢
    rcases newBranch_cases eng req m with
      ⟨hok, hrest⟩ | ⟨he, hreg, hdisp, hclosed, hnew⟩
    · rw [hok] at h
      exact Except.noConfusion h
    · exact ⟨by simp [h, httpStatus], hreg, hdisp, hnew, hclosed⟩

/-- C5 witness: the statement evaluated at the failing engine and a
concrete renegotiation request against a one-entry registry. -/
theorem c5_witness :
    httpStatus (offer engFail ⟨some "abc", some "v=0", some "offer", none⟩
      [("abc", connA)]).result = 500 ∧
    (offer engFail ⟨some "abc", some "v=0", some "offer", none⟩
      [("abc", connA)]).registry = [("abc", connA)] ∧
    (offer engFail ⟨some "abc", some "v=0", some "offer", none⟩
      [("abc", connA)]).dispatched = false ∧
    (offer engFail ⟨some "abc", some "v=0", some "offer", none⟩
      [("abc", connA)]).newConn = none ∧
    (offer engFail ⟨some "abc", some "v=0", some "offer", none⟩
      [("abc", connA)]).closedRegistered = false :=
  c5_negotiation_error_atomic engFail
    ⟨some "abc", some "v=0", some "offer", none⟩ [("abc", connA)] rfl

/-- C6: whenever a call leaves a newly created live handle (the
new-session branch succeeded), the closed-event handler was registered on
it, and firing that handler removes from any registry exactly the entry
keyed by the handle's own identifier: the handle's key is gone afterwards
and every other key is untouched. -/
theorem c6_closed_handler_registered (eng : Engine) (req : OfferRequest)
    (m : Registry) (c : SmallWebRTCConnection)
    (h : (offer eng req m).newConn = some c) :
    (offer eng req m).closedRegistered = true ∧
    (∀ m2 : Registry, Registry.wf m2 →
      Registry.containsKey (handle_disconnected c m2) c.pc_id = false) ∧
    (∀ m2 : Registry, ∀ k : String, k ≠ c.pc_id →
      Registry.find? (handle_disconnected c m2) k = Registry.find? m2 k) := by
  refine ⟨?_, fun m2 hwf => Registry.containsKey_pop_self m2 c.pc_id hwf,
    fun m2 k hk => Registry.find?_pop_ne m2 c.pc_id k hk⟩
  cases hl : lookupBranch m req.pc_id with
  | some conn =>
    rw [offer_of_lookup_some eng req m conn hl] at h
    obtain ⟨h1, h2, h3, h4, h5⟩ := renegBranch_static eng req m conn
    rw [h4] at h
    exact Option.noConfusion h
  | none =>
    rw [offer_of_lookup_none eng req m hl] at h ⊢
    rcases newBranch_cases eng req m with
      ⟨hok, hreg, hdisp, hclosed, hnew, hinit⟩ | ⟨he, hreg, hdisp, hclosed, hnew⟩
    · exact hclosed
    · rw [hnew] at h
      exact Option.noConfusion h

/-- C6 witness: the statement evaluated at a concrete new-session offer;
firing the handler on the one-entry registry holding the new handle
removes the handle's own key "pc-fresh". -/
theorem c6_witness :
    (offer engOk ⟨none, some "v=0", some "offer", none⟩ []).closedRegistered
      = true ∧
    Registry.containsKey
      (handle_disconnected (SmallWebRTCConnection.mk "pc-fresh" "sdp-ans" "answer")
        [("pc-fresh", SmallWebRTCConnection.mk "pc-fresh" "sdp-ans" "answer")])
      (SmallWebRTCConnection.mk "pc-fresh" "sdp-ans" "answer").pc_id = false :=
  ⟨(c6_closed_handler_registered engOk ⟨none, some "v=0", some "offer", none⟩
      [] ⟨"pc-fresh", "sdp-ans", "answer"⟩ rfl).1,
    (c6_closed_handler_registered engOk ⟨none, some "v=0", some "offer", none⟩
      [] ⟨"pc-fresh", "sdp-ans", "answer"⟩ rfl).2.1
      [("pc-fresh", ⟨"pc-fresh", "sdp-ans", "answer"⟩)]
      (by simp [Registry.wf, Registry.keys])⟩

/-- C7: cleanup is idempotent — delivering the closed notification any
number of times (at least once) equals delivering it once, at most one
registry entry is removed in total, and removal of an absent key is a
no-op. -/
theorem c7_cleanup_idempotent (c : SmallWebRTCConnection) (m : Registry)
    (hwf : Registry.wf m) (n : Nat) :
    (handle_disconnected c)^[n + 1] m = handle_disconnected c m ∧
    m.length ≤ ((handle_disconnected c)^[n + 1] m).length + 1 ∧
    (Registry.containsKey m c.pc_id = false →
      handle_disconnected c m = m) := by
  have hfix : handle_disconnected c (handle_disconnected c m) =
      handle_disconnected c m :=
    Registry.pop_idem m c.pc_id hwf
  have hiter : ∀ k : Nat,
      (handle_disconnected c)^[k] (handle_disconnected c m) =
        handle_disconnected c m := by
    intro k
    induction k with
    | zero => rfl
    | succ k ih => rw [Function.iterate_succ_apply, hfix, ih]
  have hmain : (handle_disconnected c)^[n + 1] m = handle_disconnected c m := by
    rw [Function.iterate_succ_apply]
    exact hiter n
  refine ⟨hmain, ?_, fun habs => Registry.pop_of_not_mem m c.pc_id habs⟩
  rw [hmain]
  exact Registry.length_pop_lb m c.pc_id

/-- C7 witness: the statement evaluated at the connection "abc", a
one-entry registry holding it, and three deliveries of the closed
notification. -/
theorem c7_witness :
    (handle_disconnected connA)^[2 + 1] [("abc", connA)] =
      handle_disconnected connA [("abc", connA)] ∧
    ([("abc", connA)] : Registry).length ≤
      ((handle_disconnected connA)^[2 + 1] [("abc", connA)]).length + 1 ∧
    (Registry.containsKey [("abc", connA)] connA.pc_id = false →
      handle_disconnected connA [("abc", connA)] = [("abc", connA)]) :=
  c7_cleanup_idempotent connA [("abc", connA)]
    (by simp [Registry.wf, Registry.keys]) 2

/-- C8: on the renegotiation branch the handle's renegotiate operation is
invoked with the request's sdp, the request's type, and a restart flag
equal to the restart_pc field when present and False when absent
(`request.get("restart_pc", False)`). -/
theorem c8_reneg_args (eng : Engine) (req : OfferRequest) (m : Registry)
    (s : String) (conn : SmallWebRTCConnection) (sd ty : String)
    (hid : req.pc_id = some s) (hne : s ≠ "")
    (hmem : Registry.find? m s = some conn)
    (hsdp : req.sdp = some sd) (hty : req.type = some ty) :
    (offer eng req m).renegArgs =
      some (sd, ty, req.restart_pc.getD false) := by
  have hl : lookupBranch m req.pc_id = some conn := by
    rw [hid]
    exact lookupBranch_some_of_found m s conn hne hmem
  rw [offer_of_lookup_some eng req m conn hl]
  simp only [renegBranch, hsdp, hty]
  cases hr : eng.reneg conn sd ty (req.restart_pc.getD false) <;>
    simp [renegCallStep, hr]

/-- C8 witness: the statement evaluated at a concrete renegotiation offer
carrying restart_pc = true; the recorded call is (sdp, type, true). -/
theorem c8_witness :
    (offer engOk ⟨some "abc", some "v=1", some "offer", some true⟩
      [("abc", connA)]).renegArgs = some ("v=1", "offer", true) :=
  c8_reneg_args engOk ⟨some "abc", some "v=1", some "offer", some true⟩
    [("abc", connA)] "abc" connA "v=1" "offer" rfl (by decide) rfl rfl rfl

/-- C9: an offer carrying no pc_id takes the new-session branch; when the
engine assigns the fresh handle an identifier distinct from every live
one and initialization succeeds, a new handle is constructed, the task is
dispatched, and the registry gains exactly one new entry, keyed by the
fresh identifier — so the registry size increases by one per such call. -/
theorem c9_fresh_offer_adds_entry (eng : Engine) (req : OfferRequest)
    (m : Registry) (sd ty : String)
    (hid : req.pc_id = none) (hsdp : req.sdp = some sd)
    (hty : req.type = some ty) (hinit : eng.initOk = true)
    (hfresh : Registry.containsKey m eng.fresh.pc_id = false) :
    (offer eng req m).constructed = true ∧
    (offer eng req m).dispatched = true ∧
    (offer eng req m).registry.length = m.length + 1 ∧
    Registry.containsKey (offer eng req m).registry eng.fresh.pc_id = true := by
  have hl : lookupBranch m req.pc_id = none := by
    rw [hid]
    exact lookupBranch_none_of_missing m
  rw [offer_of_lookup_none eng req m hl]
  have hstep : newBranch eng req m = initCallStep eng m sd ty := by
    simp [newBranch, hsdp, hty]
  rw [hstep]
  have hreg : (initCallStep eng m sd ty).registry =
      Registry.set m (get_answer eng.fresh).pc_id eng.fresh := by
    simp [initCallStep, hinit]
  refine ⟨by simp [initCallStep, hinit], by simp [initCallStep, hinit], ?_, ?_⟩
  · rw [hreg]
    exact Registry.length_set_of_not_mem m eng.fresh.pc_id eng.fresh hfresh
  · rw [hreg]
    exact Registry.containsKey_set_self m eng.fresh.pc_id eng.fresh

/-- C9 witness: the statement evaluated at a concrete identifier-less
offer against a one-entry registry not containing the fresh identifier
"pc-fresh": the registry grows from one entry to two. -/
theorem c9_witness :
    (offer engOk ⟨none, some "v=0", some "offer", none⟩
      [("abc", connA)]).constructed = true ∧
    (offer engOk ⟨none, some "v=0", some "offer", none⟩
      [("abc", connA)]).dispatched = true ∧
    (offer engOk ⟨none, some "v=0", some "offer", none⟩
      [("abc", connA)]).registry.length =
      ([("abc", connA)] : Registry).length + 1 ∧
    Registry.containsKey
      (offer engOk ⟨none, some "v=0", some "offer", none⟩
        [("abc", connA)]).registry engOk.fresh.pc_id = true :=
  c9_fresh_offer_adds_entry engOk ⟨none, some "v=0", some "offer", none⟩
    [("abc", connA)] "v=0" "offer" rfl rfl rfl rfl rfl

/-- C10: an offer whose pc_id field is the empty string is handled on the
new-session branch — a new handle is constructed, initialized with the
request's sdp and type, and the application task dispatched, with no
renegotiate call — for every registry, including one in which the empty
string is a key, because line 79 tests the pc_id for truthiness rather
than only for registry membership. -/
theorem c10_empty_pcid_new_session (eng : Engine) (req : OfferRequest)
    (m : Registry) (sd ty : String)
    (hid : req.pc_id = some "") (hsdp : req.sdp = some sd)
    (hty : req.type = some ty) (hinit : eng.initOk = true) :
    (offer eng req m).constructed = true ∧
    (offer eng req m).dispatched = true ∧
    (offer eng req m).initArgs = some (sd, ty) ∧
    (offer eng req m).renegArgs = none := by
  have hl : lookupBranch m req.pc_id = none := by
    rw [hid]
    exact lookupBranch_empty m
  rw [offer_of_lookup_none eng req m hl]
  have hstep : newBranch eng req m = initCallStep eng m sd ty := by
    simp [newBranch, hsdp, hty]
  rw [hstep]
  refine ⟨?_, ?_, ?_, ?_⟩ <;> simp [initCallStep, hinit]

/-- C10 witness: the statement evaluated at a concrete offer with
pc_id = "" against a registry in which "" is a key: the route still takes
the new-session branch and dispatches the task. -/
theorem c10_witness :
    (offer engOk ⟨some "", some "v=0", some "offer", none⟩
      [("", connEmpty)]).constructed = true ∧
    (offer engOk ⟨some "", some "v=0", some "offer", none⟩
      [("", connEmpty)]).dispatched = true ∧
    (offer engOk ⟨some "", some "v=0", some "offer", none⟩
      [("", connEmpty)]).initArgs = some ("v=0", "offer") ∧
    (offer engOk ⟨some "", some "v=0", some "offer", none⟩
      [("", connEmpty)]).renegArgs = none :=
  c10_empty_pcid_new_session engOk ⟨some "", some "v=0", some "offer", none⟩
    [("", connEmpty)] "v=0" "offer" rfl rfl rfl rfl

end PipecatRunner
